import Mathlib

/-!
Verification development for the job-search agent repository.

The Python sources are shallowly embedded:
* dictionaries become association lists over a small `PyVal` value type,
* floats become `ℚ` (all scores in the source are small decimal constants),
* code that can raise returns `Except PyErr`,
* the external LLM / scraping collaborators are oracle parameters,
* `datetime.now()` and `datetime.fromisoformat` are explicit parameters
  (the spec calls the clock "injectable"); dates are integers counted in days.
-/

namespace JobSearch

/-- A Python value as it appears in the job/resume/preference dictionaries
of this code base: a string, a list of strings, or an integer standing for a
`datetime` (days).  Other value shapes do not occur on the fields the code
reads. -/
inductive PyVal where
  | str : String → PyVal
  | strList : List String → PyVal
  | int : Int → PyVal
deriving DecidableEq

/-- A Python dict with string keys, as an association list (insertion order
is significant, exactly as for CPython dicts). -/
abbrev Dict := List (String × PyVal)

/-- `d.get(k)`: first binding of `k`, if any. -/
def dget : Dict → String → Option PyVal
  | [], _ => none
  | (k, v) :: t, s => if k = s then some v else dget t s

/-- Read a `PyVal` expected to be a string. -/
def asStr : PyVal → String
  | .str s => s
  | _ => ""

/-- Read a `PyVal` expected to be a list of strings. -/
def asList : PyVal → List String
  | .strList l => l
  | _ => []

/-- `d.get(k, default)` where the value is used as a string. -/
def getStr (d : Dict) (k df : String) : String :=
  match dget d k with
  | some v => asStr v
  | none => df

/-- `d.get(k, default)` where the value is used as a list of strings. -/
def getList (d : Dict) (k : String) (df : List String) : List String :=
  match dget d k with
  | some v => asList v
  | none => df

/-- Python `a or b` on strings where `a = d.get(k)` may be `None`:
the left value wins when it is present and non-empty (truthy). -/
def pyOrS (a : Option PyVal) (b : String) : String :=
  match a with
  | some v => if asStr v = "" then b else asStr v
  | none => b

/-- `needle` is a prefix of `hay` (on character lists). -/
def isPre : List Char → List Char → Bool
  | [], _ => true
  | _ :: _, [] => false
  | a :: as, b :: bs => a == b && isPre as bs

/-- `needle` occurs inside `hay` (on character lists). -/
def subOcc (n : List Char) : List Char → Bool
  | [] => isPre n []
  | c :: t => isPre n (c :: t) || subOcc n t

/-- Python `needle in hay` on strings. -/
def strContains (hay needle : String) : Bool :=
  subOcc needle.data hay.data

/-- Python `s.split()`: split on whitespace, dropping empty pieces. -/
def pyWords (s : String) : List String :=
  (s.split fun c => c.isWhitespace).filter fun w => w ≠ ""

/-- The exceptions this embedding tracks. -/
inductive PyErr where
  | keyError : String → PyErr
deriving DecidableEq

/-- `src/config/settings.py`, `FINAL_SCORING_WEIGHTS`: the detailed scoring
weights dictionary, with exactly the keys written in the source. -/
def FINAL_SCORING_WEIGHTS : List (String × ℚ) :=
  [("skills_match", 0.40),
   ("experience_match", 0.25),
   ("location_match", 0.20),
   ("company_fit", 0.15)]

/-- Lookup in a string-keyed rational dict. -/
def wlookup : List (String × ℚ) → String → Option ℚ
  | [], _ => none
  | (k, v) :: t, s => if k = s then some v else wlookup t s

/-- Python `m[k]` on a weights dict: raises `KeyError` when absent. -/
def dictIndex (m : List (String × ℚ)) (k : String) : Except PyErr ℚ :=
  match wlookup m k with
  | some v => .ok v
  | none => .error (.keyError k)

/-- `RelevanceScorerAgent._score_position_match` (relevance_scorer.py:130-153). -/
def score_position_match (job_title desired_role : String) : ℚ :=
  if job_title = "" ∨ desired_role = "" then 1/2
  else
    let jt := job_title.toLower
    let dr := desired_role.toLower
    if jt = dr then 1
    else if strContains jt dr then 9/10
    else if strContains dr jt then 4/5
    else
      let jw := (pyWords jt).dedup
      let rw := (pyWords dr).dedup
      let common := jw.filter fun w => w ∈ rw
      if common ≠ [] then (7/10) * ((common.length : ℚ) / (max jw.length rw.length : ℚ))
      else 2/5

/-- `RelevanceScorerAgent._score_skills_match` (relevance_scorer.py:155-173). -/
def score_skills_match (required_skills candidate_skills : List String) : ℚ :=
  if required_skills = [] then 7/10
  else if candidate_skills = [] then 3/10
  else
    let reql := required_skills.map String.toLower
    let candl := candidate_skills.map String.toLower
    let nMatches := (reql.filter fun sk =>
      candl.any fun c => strContains sk c || strContains c sk).length
    min 1 ((nMatches : ℚ) / (reql.length : ℚ))

/-- `RelevanceScorerAgent._score_location_match` (relevance_scorer.py:175-211).
The sequential early returns of the Python body become nested conditionals. -/
def score_location_match (job_location preferred_location work_mode : String) : ℚ :=
  if job_location = "" then 1/2
  else
    let jl := job_location.toLower
    if work_mode = "Remote" ∧ strContains jl "remote" then 1
    else if (work_mode = "On-site" ∨ work_mode = "Hybrid") ∧ preferred_location ≠ "" ∧
        strContains jl preferred_location.toLower then 1
    else if (work_mode = "On-site" ∨ work_mode = "Hybrid") ∧ preferred_location ≠ "" ∧
        (preferred_location.toLower.splitOn ",").any (fun p => strContains jl p.trim) then 4/5
    else if work_mode = "Any" ∧ preferred_location = "" then 7/10
    else if work_mode = "Any" ∧ strContains jl preferred_location.toLower then 1
    else if work_mode = "Any" ∧
        (preferred_location.toLower.splitOn ",").any (fun p => strContains jl p.trim) then 4/5
    else 2/5

/-- Result shape of a per-job scoring call (the JSON object the scorer
produces): total score, per-category scores, per-category explanations. -/
structure ScoreResult where
  total_score : ℚ
  score_breakdown : List (String × ℚ)
  match_details : List (String × String)
deriving DecidableEq

/-- Python `round(x, 1)` (modelled as nearest-integer rounding of `10 x`). -/
def roundTo1 (q : ℚ) : ℚ := (round (q * 10) : ℤ) / 10

/-- Python `f"{x*100:.0f}"` (modelled as nearest-integer rendering). -/
def fmtPct (q : ℚ) : String := toString (round (q * 100) : ℤ)

/-- `RelevanceScorerAgent._manual_score_job` (relevance_scorer.py:83-128).
The sub-scores are computed first; the weighted total then indexes
`FINAL_SCORING_WEIGHTS` with the six category names the method expects,
raising `KeyError` on the first missing key, before the result dict with
its explanation strings is ever built. -/
def manual_score_job (job resume_data preferences : Dict) : Except PyErr ScoreResult := do
  let position_match := score_position_match (getStr job "title" "") (getStr resume_data "desired_role" "")
  let skills_match := score_skills_match (getList job "required_skills" []) (getList resume_data "skills" [])
  let location_match := score_location_match (getStr job "location" "")
    (getStr resume_data "location_preference" "") (getStr preferences "work_mode_preference" "Any")
  let company_match : ℚ := 70
  let salary_match : ℚ := 65
  let benefits_match : ℚ := 60
  let w1 ← dictIndex FINAL_SCORING_WEIGHTS "position_match"
  let w2 ← dictIndex FINAL_SCORING_WEIGHTS "skills_experience"
  let w3 ← dictIndex FINAL_SCORING_WEIGHTS "location"
  let w4 ← dictIndex FINAL_SCORING_WEIGHTS "company_match"
  let w5 ← dictIndex FINAL_SCORING_WEIGHTS "salary_match"
  let w6 ← dictIndex FINAL_SCORING_WEIGHTS "benefits"
  let total_score := (position_match * w1 + skills_match * w2 + location_match * w3 +
    company_match * w4 + salary_match * w5 + benefits_match * w6) * 100
  .ok {
    total_score := roundTo1 total_score
    score_breakdown :=
      [("position_match", position_match * 100), ("skills_experience", skills_match * 100),
       ("location", location_match * 100), ("company_match", company_match),
       ("salary_match", salary_match), ("benefits", benefits_match)]
    match_details :=
      [("position_match", "The job title \x27" ++ getStr job "title" "" ++ "\x27 is a " ++
          fmtPct position_match ++ "% match with desired role \x27" ++
          getStr resume_data "desired_role" "" ++ "\x27"),
       ("skills_experience", "Matched " ++ fmtPct skills_match ++ "% of required skills"),
       ("location", "Location match: " ++ fmtPct location_match ++ "%"),
       ("company_match", "Company appears to be a reasonable match"),
       ("salary_match", "Salary information limited"),
       ("benefits", "Benefits information limited")] }

/-- `RelevanceScorerAgent._score_job` (relevance_scorer.py:39-81).
The LLM call plus the JSON extraction of lines 72-78 is the oracle
parameter `llm`; `none` models a response that is not parseable JSON
(the `except` branch of line 79), which falls back to manual scoring. -/
def score_job (llm : Dict → Dict → Dict → Option ScoreResult)
    (job resume_data preferences : Dict) : Except PyErr ScoreResult :=
  match llm job resume_data preferences with
  | some r => .ok r
  | none => manual_score_job job resume_data preferences

section StableSort

variable {α : Type} (key : α → ℚ)

/-- One insertion step of the stable descending sort: `x` (an element that
precedes `l`'s elements in the original list) is placed before the first
element whose key does not exceed `key x`. -/
def insertD (x : α) : List α → List α
  | [] => [x]
  | y :: ys => if key y ≤ key x then x :: y :: ys else y :: insertD x ys

/-- CPython's `list.sort(key=..., reverse=True)` / `sorted(..., reverse=True)`:
a stable descending sort (Timsort is documented stable; a stable sort is
determined uniquely by its ordering contract, so this insertion-sort
formulation is an exact model). -/
def pySortDesc : List α → List α
  | [] => []
  | x :: xs => insertD key x (pySortDesc xs)

/-- The sublist of elements whose key equals `q` (used to state stability:
a stable sort leaves each such sublist unchanged). -/
def keyFilter (q : ℚ) : List α → List α
  | [] => []
  | a :: l => if key a = q then a :: keyFilter q l else keyFilter q l

end StableSort

/-- A job record combined with its per-category scoring output, as produced by
`RelevanceScorerAgent.process` (relevance_scorer.py:235-240): the original job
dict plus `total_score`, `score_breakdown` and `match_details`. -/
structure ScoredListing where
  job : Dict
  total_score : ℚ
  score_breakdown : List (String × ℚ)
  match_details : List (String × String)
deriving DecidableEq

/-- The workflow-state dict threaded through the agents pipeline
(manager.py / relevance_scorer.py).  A missing `resume_data` key is `none`;
Python's truthiness of the value is handled at the use sites. -/
structure AgentState where
  resume_data : Option Dict
  job_listings : List Dict
  feedback : Dict
  scored_listings : List ScoredListing
  resume_parsed : Bool
  jobs_scraped : Bool
  analysis_complete : Bool
  feedback_processed : Bool
  notification_sent : Bool
  error_log : List String
  current_phase : String
  next_step : String
deriving DecidableEq

/-- `RelevanceScorerAgent.process` (relevance_scorer.py:213-249).
`if not resume_data or not job_listings` is Python truthiness: a missing or
empty profile dict, or an empty job list, takes the early branch of lines
219-222.  Otherwise every job is scored (possibly raising, propagated by
`Except`) and the results are stable-sorted by `total_score` descending. -/
def scorerProcess (llm : Dict → Dict → Dict → Option ScoreResult)
    (s : AgentState) : Except PyErr AgentState :=
  if (s.resume_data = none ∨ s.resume_data = some []) ∨ s.job_listings = [] then
    .ok { s with analysis_complete := true, scored_listings := [] }
  else do
    let resume := s.resume_data.getD []
    let scored ← s.job_listings.mapM fun job => do
      let r ← score_job llm job resume s.feedback
      pure ({ job := job, total_score := r.total_score,
              score_breakdown := r.score_breakdown,
              match_details := r.match_details } : ScoredListing)
    .ok { s with analysis_complete := true,
                 scored_listings := pySortDesc (fun x => x.total_score) scored }

/-- `ManagerAgent.determine_next_step` (manager.py:16-37). -/
def determine_next_step (s : AgentState) : AgentState :=
  if s.error_log ≠ [] then { s with next_step := "complete" }
  else if s.resume_parsed = false then { s with next_step := "resume_parser" }
  else if s.jobs_scraped = false then { s with next_step := "job_scraper" }
  else if s.analysis_complete = false then { s with next_step := "relevance_scorer" }
  else if s.feedback_processed = false then { s with next_step := "feedback_refiner" }
  else if s.notification_sent = false then { s with next_step := "notification" }
  else { s with next_step := "complete" }

/-- The stage-completion flags in the fixed inspection order named by the
spec, paired with the stage each unset flag schedules. -/
def stageFlags (s : AgentState) : List (Bool × String) :=
  [(s.resume_parsed, "resume_parser"),
   (s.jobs_scraped, "job_scraper"),
   (s.analysis_complete, "relevance_scorer"),
   (s.feedback_processed, "feedback_refiner"),
   (s.notification_sent, "notification")]

/-- Modelled from the spec words (spec §4.5 transition rule), for comparison
with `determine_next_step`: an error log with at least one entry
short-circuits to `complete`; otherwise the first stage whose completion flag
is unset is selected, and `complete` when all are set. -/
def coordinatorSpec (s : AgentState) : String :=
  if s.error_log ≠ [] then "complete"
  else
    match (stageFlags s).find? (fun p => !p.1) with
    | some p => p.2
    | none => "complete"

/-- Canonical job record produced by `JobSearchWorkflow.standardize_job_data`
(main.py:285-304). -/
structure StdJob where
  title : String
  company : String
  location : String
  description : String
  url : String
  source : String
deriving DecidableEq

/-- Resolved title: `job.get("title") or job.get("positionName") or job.get("name", "")`. -/
def resolvedTitle (d : Dict) : String :=
  pyOrS (dget d "title") (pyOrS (dget d "positionName") (getStr d "name" ""))

/-- Resolved company: `job.get("company") or job.get("companyName", "")`. -/
def resolvedCompany (d : Dict) : String :=
  pyOrS (dget d "company") (getStr d "companyName" "")

/-- Resolved location: `job.get("location") or job.get("place", "")`. -/
def resolvedLocation (d : Dict) : String :=
  pyOrS (dget d "location") (getStr d "place" "")

/-- Resolved description: `job.get("description") or job.get("jobDescription", "")`. -/
def resolvedDescription (d : Dict) : String :=
  pyOrS (dget d "description") (getStr d "jobDescription" "")

/-- Resolved url: `job.get("url") or job.get("applicationLink", "")`. -/
def resolvedUrl (d : Dict) : String :=
  pyOrS (dget d "url") (getStr d "applicationLink" "")

/-- The bare `url` key, `job.get("url", "")`, which is what both source
attributions read (not the resolved url). -/
def rawUrl (d : Dict) : String := getStr d "url" ""

/-- Source attribution of `standardize_job_data` (main.py:294):
`"LinkedIn" if "linkedin.com" in job.get("url", "") else "Indeed"`. -/
def stdSource (d : Dict) : String :=
  if strContains (rawUrl d) "linkedin.com" then "LinkedIn" else "Indeed"

/-- `JobSearchWorkflow.standardize_job_data` (main.py:285-304): build the
canonical record, then drop it (`None`) when the resolved title or company is
empty. -/
def standardize_job_data (d : Dict) : Option StdJob :=
  let t := resolvedTitle d
  let c := resolvedCompany d
  if t = "" ∨ c = "" then none
  else some { title := t, company := c, location := resolvedLocation d,
              description := resolvedDescription d, url := resolvedUrl d,
              source := stdSource d }

/-- The standardization loop of `search_jobs` (main.py:269-275): each raw
record is standardized and `None` results are skipped. -/
def standardizeList (l : List Dict) : List StdJob :=
  l.filterMap standardize_job_data

/-- A standardized record viewed again as the Python dict it is
(main.py keeps these records as plain dicts). -/
def StdJob.toDict (j : StdJob) : Dict :=
  [("title", .str j.title), ("company", .str j.company),
   ("location", .str j.location), ("description", .str j.description),
   ("url", .str j.url), ("source", .str j.source)]

/-- A standardized job together with the total score attached by
`JobSearchWorkflow.score_jobs` (main.py:410-412). -/
structure ScoredJob where
  job : StdJob
  total_score : ℚ
deriving DecidableEq

/-- Per-job outcome of the scoring call of `score_jobs` (main.py:381-437):
the OpenAI call plus JSON handling is the oracle `llm`; `none` models the
`except` branch of line 423, which assigns the basic score 70. -/
def scoreValue (llm : StdJob → Option ℚ) (j : StdJob) : ℚ :=
  match llm j with
  | some q => q
  | none => 70

/-- `JobSearchWorkflow.score_jobs` (main.py:332-448): score every job, then
stable-sort by `total_score` descending (line 440). -/
def score_jobs (llm : StdJob → Option ℚ) (jobs : List StdJob) : List ScoredJob :=
  pySortDesc (fun x => x.total_score)
    (jobs.map fun j => { job := j, total_score := scoreValue llm j })

/-- The ranking step alone (main.py:440, relevance_scorer.py:243):
`scored_jobs.sort(key=lambda x: x["total_score"], reverse=True)`. -/
def rank_scored (l : List ScoredJob) : List ScoredJob :=
  pySortDesc (fun x => x.total_score) l

/-- Canonical record produced by `JobScraperAgent._normalize_job_data`
(job_scraper.py:132-153).  `posted_date` is a datetime, modelled in days. -/
structure NormJob where
  job_id : String
  title : String
  company : String
  location : String
  url : String
  source : String
  posted_date : Int
deriving DecidableEq

/-- `JobScraperAgent._normalize_job_data` (job_scraper.py:132-153).
`hashId` models `str(hash(str(job)))` (Python's per-process string hash);
`now` models `datetime.now()` in days; `parseISO` models
`datetime.fromisoformat` after the `Z` replacement, `none` being the
`ValueError` branch.  String ids are assumed, matching the scraped data. -/
def normalize_job_data (hashId : Dict → String) (now : Int)
    (parseISO : String → Option Int) (d : Dict) : NormJob :=
  let job_id := match dget d "id" with
    | some v => asStr v
    | none => match dget d "jobId" with
      | some v => asStr v
      | none => hashId d
  let title := match dget d "title" with
    | some v => asStr v
    | none => match dget d "name" with
      | some v => asStr v
      | none => "Unknown Position"
  let company := match dget d "company" with
    | some v => asStr v
    | none => match dget d "companyName" with
      | some v => asStr v
      | none => "Unknown Company"
  let location := match dget d "location" with
    | some v => asStr v
    | none => match dget d "place" with
      | some v => asStr v
      | none => "Unknown Location"
  let url := match dget d "url" with
    | some v => asStr v
    | none => match dget d "link" with
      | some v => asStr v
      | none => match dget d "applicationLink" with
        | some v => asStr v
        | none => ""
  let source := if strContains (rawUrl d) "linkedin" then "LinkedIn" else "Indeed"
  let posted_date := match dget d "postedDate" with
    | some (.str s) => (parseISO s).getD (now - 7)
    | some _ => now - 7
    | none => match dget d "date" with
      | some (.str s) => (parseISO s).getD (now - 7)
      | some _ => now - 7
      | none => match dget d "listedAt" with
        | some (.str s) => (parseISO s).getD (now - 7)
        | some _ => now - 7
        | none => now - 7
  { job_id := job_id, title := title, company := company, location := location,
    url := url, source := source, posted_date := posted_date }

/-- A normalized record viewed again as the Python dict it is, with exactly
the keys `_normalize_job_data` writes. -/
def NormJob.toDict (j : NormJob) : Dict :=
  [("job_id", .str j.job_id), ("title", .str j.title), ("company", .str j.company),
   ("location", .str j.location), ("url", .str j.url), ("source", .str j.source),
   ("posted_date", .int j.posted_date)]

/-- The normalization step of `JobScraperAgent.process` (job_scraper.py:101-109):
every raw record is normalized and appended — nothing is ever excluded. -/
def normalizeList (hashId : Dict → String) (now : Int)
    (parseISO : String → Option Int) (l : List Dict) : List NormJob :=
  l.map (normalize_job_data hashId now parseISO)

/-- One `skill_count[skill] = skill_count.get(skill, 0) + 1` step
(notification.py:60): increment in place, or append a fresh binding at the
end — CPython dicts keep insertion order. -/
def bump : List (String × Nat) → String → List (String × Nat)
  | [], s => [(s, 1)]
  | (k, n) :: t, s => if k = s then (k, n + 1) :: t else (k, n) :: bump t s

/-- The counting loop of `_extract_common_skills` (notification.py:56-60). -/
def skillCounts (jobs : List Dict) : List (String × Nat) :=
  jobs.foldl (fun m j => (getList j "required_skills" []).foldl bump m) []

/-- All skills mentioned across the jobs, in traversal order. -/
def flatSkills (jobs : List Dict) : List String :=
  (jobs.map fun j => getList j "required_skills" []).flatten

/-- `NotificationAgent._extract_common_skills` (notification.py:54-63):
`sorted(skill_count.items(), key=lambda x: x[1], reverse=True)` — a stable
descending sort of the insertion-ordered count table. -/
def extract_common_skills (jobs : List Dict) : List (String × Nat) :=
  pySortDesc (fun p => (p.2 : ℚ)) (skillCounts jobs)

/-- The top-five slice the results summary prints
(notification.py:48, `skills_mentioned[:5]`). -/
def topRequestedSkills (jobs : List Dict) : List (String × Nat) :=
  (extract_common_skills jobs).take 5

/-- Number of occurrences of `s` (spec-side counting function). -/
def occCount : List String → String → Nat
  | [], _ => 0
  | a :: l, s => (if a = s then 1 else 0) + occCount l s

/-- First bound value of `s` in a count table, `0` when absent. -/
def cnt : List (String × Nat) → String → Nat
  | [], _ => 0
  | (k, n) :: t, s => if k = s then n else cnt t s

/-- Remove every occurrence of `s`. -/
def filterNe (s : String) : List String → List String
  | [] => []
  | a :: l => if a = s then filterNe s l else a :: filterNe s l

/-- Deduplication keeping the first occurrence of each string (spec-side:
the order in which CPython dict insertion first sees each skill). -/
def firstOccs : List String → List String
  | [] => []
  | a :: l => a :: filterNe a (firstOccs l)

/-- Drop the strings already present in `ks`. -/
def dropKnown (ks : List String) : List String → List String
  | [] => []
  | s :: l => if s ∈ ks then dropKnown ks l else s :: dropKnown ks l

/-- Code-point comparison of strings (Python string `<=`, the "alphabetical"
order of the spec). -/
def alphLE : List Char → List Char → Bool
  | [], _ => true
  | _ :: _, [] => false
  | a :: as, b :: bs => if a = b then alphLE as bs else decide (a.toNat < b.toNat)

/-- Modelled from the spec words (spec §4.4): the skill ranking is sorted by
count descending with ties between equal counts broken alphabetically. -/
def tieAlphaSorted (l : List (String × Nat)) : Prop :=
  l.Pairwise fun p q => q.2 < p.2 ∨ (q.2 = p.2 ∧ alphLE p.1.data q.1.data = true)

/-- The six category names the specification attributes to the detailed
scoring configuration. -/
def claimedCategories : List String :=
  ["position_match", "skills_experience", "location", "company_match",
   "salary_match", "benefits"]

/-- A raw record whose resolved title is empty: the `title` key is present
but bound to the empty string, and no alias key is present. -/
def exEmptyTitle : Dict := [("title", .str ""), ("company", .str "Acme")]

/-- Input list for the normalization-exclusion witness. -/
def exRawJobs : List Dict :=
  [[("title", .str "Engineer"), ("company", .str "Acme")], exEmptyTitle]

/-- Two single-skill jobs mentioning "b" then "a", giving equal counts. -/
def exSkillJobs : List Dict :=
  [[("required_skills", .strList ["b"])], [("required_skills", .strList ["a"])]]

/-- A raw record whose url arrives under `applicationLink` only: the first
standardization then reads an empty `url` key for source attribution. -/
def exAppLinkRaw : Dict :=
  [("title", .str "T"), ("company", .str "C"),
   ("applicationLink", .str "https://linkedin.com/j")]

/-- A raw record whose url sits under the `url` key. -/
def exUrlRaw : Dict :=
  [("title", .str "T"), ("company", .str "C"),
   ("url", .str "https://linkedin.com/a")]

/-- The standardization of `exUrlRaw`. -/
def exUrlStd : StdJob :=
  { title := "T", company := "C", location := "", description := "",
    url := "https://linkedin.com/a", source := "LinkedIn" }

/-- A raw record whose url mentions `linkedin` but not `linkedin.com`. -/
def exLnkRaw : Dict :=
  [("url", .str "https://linkedin.example/x"), ("title", .str "T"),
   ("company", .str "C")]

/-- Source-attribution witness record with a genuine LinkedIn url. -/
def exComRaw : Dict :=
  [("title", .str "T"), ("company", .str "C"),
   ("url", .str "https://www.linkedin.com/jobs/1")]

/-- The standardization of `exComRaw`. -/
def exComStd : StdJob :=
  { title := "T", company := "C", location := "", description := "",
    url := "https://www.linkedin.com/jobs/1", source := "LinkedIn" }

/-- A workflow state with no candidate profile but a non-empty job list. -/
def exNoResumeState : AgentState :=
  { resume_data := none, job_listings := [[("title", .str "X")]], feedback := [],
    scored_listings := [], resume_parsed := true, jobs_scraped := true,
    analysis_complete := false, feedback_processed := false,
    notification_sent := false, error_log := [], current_phase := "init",
    next_step := "" }

/-! ## Helper lemmas -/

theorem insertD_perm {α : Type} (key : α → ℚ) (x : α) (l : List α) :
    List.Perm (insertD key x l) (x :: l) := by
  induction l with
  | nil => exact List.Perm.refl _
  | cons y ys ih =>
    by_cases h : key y ≤ key x
    · simp only [insertD, if_pos h]
      exact List.Perm.refl _
    · simp only [insertD, if_neg h]
      exact (ih.cons y).trans (List.Perm.swap x y ys)

theorem pySortDesc_perm {α : Type} (key : α → ℚ) (l : List α) :
    List.Perm (pySortDesc key l) l := by
  induction l with
  | nil => exact List.Perm.refl _
  | cons x xs ih =>
    exact (insertD_perm key x (pySortDesc key xs)).trans (ih.cons x)

theorem insertD_sorted {α : Type} (key : α → ℚ) (x : α) {l : List α}
    (hl : l.Pairwise fun a b => key b ≤ key a) :
    (insertD key x l).Pairwise fun a b => key b ≤ key a := by
  induction l with
  | nil => simp [insertD]
  | cons y ys ih =>
    rw [List.pairwise_cons] at hl
    obtain ⟨hy, hys⟩ := hl
    by_cases h : key y ≤ key x
    · simp only [insertD, if_pos h]
      rw [List.pairwise_cons]
      refine ⟨?_, ?_⟩
      · intro b hb
        rcases List.mem_cons.mp hb with rfl | hb'
        · exact h
        · exact le_trans (hy b hb') h
      · rw [List.pairwise_cons]
        exact ⟨hy, hys⟩
    · simp only [insertD, if_neg h]
      rw [List.pairwise_cons]
      refine ⟨?_, ih hys⟩
      intro b hb
      have hb' : b ∈ x :: ys := (insertD_perm key x ys).mem_iff.mp hb
      rcases List.mem_cons.mp hb' with rfl | hb''
      · exact le_of_lt (lt_of_not_le h)
      · exact hy b hb''

theorem pySortDesc_sorted {α : Type} (key : α → ℚ) (l : List α) :
    (pySortDesc key l).Pairwise fun a b => key b ≤ key a := by
  induction l with
  | nil => simp [pySortDesc]
  | cons x xs ih => exact insertD_sorted key x ih

theorem insertD_keyFilter {α : Type} (key : α → ℚ) (q : ℚ) (x : α) (l : List α) :
    keyFilter key q (insertD key x l) = keyFilter key q (x :: l) := by
  induction l with
  | nil => rfl
  | cons y ys ih =>
    by_cases h : key y ≤ key x
    · simp only [insertD, if_pos h]
    · simp only [insertD, if_neg h]
      by_cases hx : key x = q
      · by_cases hy : key y = q
        · exact absurd (le_of_eq (hy.trans hx.symm)) h
        · simp only [keyFilter, if_pos hx, if_neg hy] at ih ⊢
          exact ih
      · by_cases hy : key y = q
        · simp only [keyFilter, if_neg hx, if_pos hy] at ih ⊢
          rw [ih]
        · simp only [keyFilter, if_neg hx, if_neg hy] at ih ⊢
          exact ih

theorem pySortDesc_keyFilter {α : Type} (key : α → ℚ) (q : ℚ) (l : List α) :
    keyFilter key q (pySortDesc key l) = keyFilter key q l := by
  induction l with
  | nil => rfl
  | cons x xs ih =>
    have h1 := insertD_keyFilter key q x (pySortDesc key xs)
    by_cases hx : key x = q
    · simp only [pySortDesc, h1, keyFilter, if_pos hx, ih]
    · simp only [pySortDesc, h1, keyFilter, if_neg hx, ih]

theorem cnt_bump (m : List (String × Nat)) (s t : String) :
    cnt (bump m s) t = cnt m t + (if s = t then 1 else 0) := by
  induction m with
  | nil =>
    by_cases h : s = t
    · subst h; simp [bump, cnt]
    · simp [bump, cnt, h]
  | cons kv m ih =>
    obtain ⟨k, n⟩ := kv
    by_cases hks : k = s
    · subst hks
      by_cases hkt : k = t
      · subst hkt; simp [bump, cnt]
      · simp [bump, cnt, hkt]
    · by_cases hkt : k = t
      · subst hkt
        have hsk : ¬ s = k := fun hh => hks hh.symm
        simp [bump, cnt, hks, hsk]
      · simp [bump, cnt, hks, hkt, ih]

theorem cnt_foldl (l : List String) (m : List (String × Nat)) (t : String) :
    cnt (l.foldl bump m) t = cnt m t + occCount l t := by
  induction l generalizing m with
  | nil => simp [occCount]
  | cons s l ih =>
    simp only [List.foldl_cons, occCount]
    rw [ih, cnt_bump]
    ring

theorem bump_keys (m : List (String × Nat)) (s : String) :
    (bump m s).map Prod.fst =
      if s ∈ m.map Prod.fst then m.map Prod.fst else m.map Prod.fst ++ [s] := by
  induction m with
  | nil => simp [bump]
  | cons kv m ih =>
    obtain ⟨k, n⟩ := kv
    by_cases h : k = s
    · subst h; simp [bump]
    · have hsk : ¬ s = k := fun hh => h hh.symm
      by_cases hm : s ∈ m.map Prod.fst
      · simp [bump, h, ih, hm, hsk]
      · simp [bump, h, ih, hm, hsk]

theorem bump_keys_nodup {m : List (String × Nat)}
    (h : (m.map Prod.fst).Nodup) (s : String) :
    ((bump m s).map Prod.fst).Nodup := by
  rw [bump_keys]
  by_cases hm : s ∈ m.map Prod.fst
  · rw [if_pos hm]; exact h
  · rw [if_neg hm, List.nodup_append]
    refine ⟨h, List.nodup_singleton s, ?_⟩
    intro a ha ha'
    rw [List.mem_singleton] at ha'
    subst ha'
    exact hm ha

theorem foldl_bump_keys_nodup (l : List String) {m : List (String × Nat)}
    (h : (m.map Prod.fst).Nodup) : ((l.foldl bump m).map Prod.fst).Nodup := by
  induction l generalizing m with
  | nil => exact h
  | cons s l ih => exact ih (bump_keys_nodup h s)

theorem cnt_of_mem {m : List (String × Nat)} (h : (m.map Prod.fst).Nodup)
    {p : String × Nat} (hp : p ∈ m) : cnt m p.1 = p.2 := by
  induction m with
  | nil => cases hp
  | cons kv m ih =>
    obtain ⟨k, n⟩ := kv
    rw [List.map_cons, List.nodup_cons] at h
    rcases List.mem_cons.mp hp with rfl | hp'
    · simp [cnt]
    · have hk : ¬ k = p.1 := by
        intro hh
        have hmem : p.1 ∈ m.map Prod.fst := List.mem_map_of_mem Prod.fst hp'
        rw [← hh] at hmem
        exact h.1 hmem
      simp only [cnt, if_neg hk]
      exact ih h.2 hp'

theorem filterNe_comm (s t : String) (l : List String) :
    filterNe s (filterNe t l) = filterNe t (filterNe s l) := by
  induction l with
  | nil => rfl
  | cons a l ih =>
    by_cases hs : a = s
    · by_cases ht : a = t
      · simp only [filterNe]
        rw [if_pos ht, if_pos hs]
        exact ih
      · simp only [filterNe]
        rw [if_neg ht, if_pos hs]
        simp only [filterNe]
        rw [if_pos hs]
        exact ih
    · by_cases ht : a = t
      · simp only [filterNe]
        rw [if_pos ht, if_neg hs]
        simp only [filterNe]
        rw [if_pos ht]
        exact ih
      · simp only [filterNe]
        rw [if_neg ht, if_neg hs]
        simp only [filterNe]
        rw [if_neg hs, if_neg ht, ih]

theorem filterNe_idem (s : String) (l : List String) :
    filterNe s (filterNe s l) = filterNe s l := by
  induction l with
  | nil => rfl
  | cons a l ih =>
    by_cases hs : a = s
    · simp only [filterNe]
      rw [if_pos hs]
      exact ih
    · simp only [filterNe]
      rw [if_neg hs]
      simp only [filterNe]
      rw [if_neg hs, ih]

theorem firstOccs_filterNe (s : String) (l : List String) :
    firstOccs (filterNe s l) = filterNe s (firstOccs l) := by
  induction l with
  | nil => rfl
  | cons a l ih =>
    by_cases hs : a = s
    · subst hs
      simp [filterNe, firstOccs, ih, filterNe_idem]
    · simp [filterNe, firstOccs, hs, ih, filterNe_comm]

theorem dropKnown_append_singleton (ks : List String) (s : String) (l : List String) :
    dropKnown (ks ++ [s]) l = filterNe s (dropKnown ks l) := by
  induction l with
  | nil => rfl
  | cons a l ih =>
    by_cases hk : a ∈ ks
    · simp [dropKnown, filterNe, hk, ih, List.mem_append]
    · by_cases hs : a = s
      · subst hs
        simp [dropKnown, filterNe, hk, ih, List.mem_append]
      · simp [dropKnown, filterNe, hk, hs, ih, List.mem_append]

theorem dropKnown_nil (l : List String) : dropKnown [] l = l := by
  induction l with
  | nil => rfl
  | cons a l ih => simp [dropKnown, ih]

theorem keys_foldl_bump (l : List String) (m : List (String × Nat)) :
    (l.foldl bump m).map Prod.fst =
      m.map Prod.fst ++ firstOccs (dropKnown (m.map Prod.fst) l) := by
  induction l generalizing m with
  | nil => simp [dropKnown, firstOccs]
  | cons s l ih =>
    simp only [List.foldl_cons]
    rw [ih, bump_keys]
    by_cases hm : s ∈ m.map Prod.fst
    · rw [if_pos hm]
      simp [dropKnown, hm]
    · rw [if_neg hm]
      rw [dropKnown_append_singleton, firstOccs_filterNe]
      simp [dropKnown, hm, firstOccs, List.append_assoc]

theorem skillCounts_eq_flat (jobs : List Dict) :
    skillCounts jobs = (flatSkills jobs).foldl bump [] := by
  have h : ∀ (js : List Dict) (m : List (String × Nat)),
      js.foldl (fun m j => (getList j "required_skills" []).foldl bump m) m =
        ((js.map fun j => getList j "required_skills" []).flatten).foldl bump m := by
    intro js
    induction js with
    | nil => intro m; rfl
    | cons j js ih =>
      intro m
      simp only [List.foldl_cons, List.map_cons, List.flatten_cons, List.foldl_append]
      exact ih _
  exact h jobs []

theorem pyOrS_strVal (s : String) : pyOrS (some (.str s)) "" = s := by
  by_cases h : s = "" <;> simp [pyOrS, asStr, h]

theorem pyOrS_strVal_ne {s : String} (h : s ≠ "") (b : String) :
    pyOrS (some (.str s)) b = s := by
  simp [pyOrS, asStr, h]

theorem standardize_toDict (j : StdJob) (ht : j.title ≠ "") (hc : j.company ≠ "") :
    standardize_job_data j.toDict =
      some { j with source :=
        if strContains j.url "linkedin.com" = true then "LinkedIn" else "Indeed" } := by
  obtain ⟨t, c, loc, desc, u, src⟩ := j
  have h1 : resolvedTitle (StdJob.toDict ⟨t, c, loc, desc, u, src⟩) = t := by
    rw [show resolvedTitle (StdJob.toDict ⟨t, c, loc, desc, u, src⟩) =
      pyOrS (some (.str t)) "" from rfl, pyOrS_strVal]
  have h2 : resolvedCompany (StdJob.toDict ⟨t, c, loc, desc, u, src⟩) = c := by
    rw [show resolvedCompany (StdJob.toDict ⟨t, c, loc, desc, u, src⟩) =
      pyOrS (some (.str c)) "" from rfl, pyOrS_strVal]
  have h3 : resolvedLocation (StdJob.toDict ⟨t, c, loc, desc, u, src⟩) = loc := by
    rw [show resolvedLocation (StdJob.toDict ⟨t, c, loc, desc, u, src⟩) =
      pyOrS (some (.str loc)) "" from rfl, pyOrS_strVal]
  have h4 : resolvedDescription (StdJob.toDict ⟨t, c, loc, desc, u, src⟩) = desc := by
    rw [show resolvedDescription (StdJob.toDict ⟨t, c, loc, desc, u, src⟩) =
      pyOrS (some (.str desc)) "" from rfl, pyOrS_strVal]
  have h5 : resolvedUrl (StdJob.toDict ⟨t, c, loc, desc, u, src⟩) = u := by
    rw [show resolvedUrl (StdJob.toDict ⟨t, c, loc, desc, u, src⟩) =
      pyOrS (some (.str u)) "" from rfl, pyOrS_strVal]
  have h6 : stdSource (StdJob.toDict ⟨t, c, loc, desc, u, src⟩) =
      (if strContains u "linkedin.com" = true then "LinkedIn" else "Indeed") := rfl
  simp only [standardize_job_data, h1, h2, h3, h4, h5, h6]
  rw [if_neg (fun hor => hor.elim ht hc)]

/-! ## Claims -/

/-- Claim C1: the specification says that with a reasoning collaborator that
always returns invalid (non-JSON) output, the per-job scoring call never
raises and returns a deterministic-strategy result with `total_score` in
[0,100] and non-empty explanations.  The code disagrees: the fallback
`_manual_score_job` indexes `FINAL_SCORING_WEIGHTS["position_match"]`, a key
the configured weights dict does not contain, so for every job record,
candidate profile and preferences map the call raises
`KeyError("position_match")` instead of returning a result. -/
theorem scoreJob_invalid_llm_raises_keyError (job resume_data preferences : Dict) :
    score_job (fun _ _ _ => none) job resume_data preferences =
      .error (.keyError "position_match") := rfl

/-- Claim C2 (counterexample): the configuration does not define weights for
the six claimed categories; in particular `position_match` is not a key of
`FINAL_SCORING_WEIGHTS`. -/
theorem finalWeights_claimed_categories_absent :
    ¬ ∀ c ∈ claimedCategories, (wlookup FINAL_SCORING_WEIGHTS c).isSome = true := by
  decide

/-- Claim C2 (amended): `FINAL_SCORING_WEIGHTS` defines weights for exactly
the categories `skills_match`, `experience_match`, `location_match` and
`company_fit`, and these weights sum to 1.0; no configuration-time
validation of the sum exists in the code. -/
theorem finalWeights_actual_keys_sum_one :
    FINAL_SCORING_WEIGHTS.map Prod.fst =
      ["skills_match", "experience_match", "location_match", "company_fit"]
    ∧ (FINAL_SCORING_WEIGHTS.map Prod.snd).sum = 1 := by
  refine ⟨rfl, ?_⟩
  simp only [FINAL_SCORING_WEIGHTS, List.map_cons, List.map_nil, List.sum_cons,
    List.sum_nil]
  norm_num

/-- Claim C3 (counterexample): the agents-path normalizer
`_normalize_job_data` excludes nothing.  The record whose `title` key holds
the empty string (so its resolved title is empty — the `"Unknown Position"`
default applies only to absent keys) survives normalization with an empty
title, and the normalized list is non-empty, contradicting the claimed
exclusion invariant on this cited normalization path. -/
theorem agents_normalizer_keeps_empty_title :
    normalizeList (fun _ => "0") 0 (fun _ => none) [exEmptyTitle] ≠ []
    ∧ (normalize_job_data (fun _ => "0") 0 (fun _ => none) exEmptyTitle).title = "" := by
  constructor
  · decide
  · rfl

/-- Claim C3 (amended): for main.py's `standardize_job_data` the claimed
exclusion holds — the standardized list is no longer than the input, every
surviving record has a non-empty title and company, a record with an empty
resolved title or company standardizes to `None`, and every record in the
scoring/ranking output stems from a surviving standardized record.  The
agents-path `_normalize_job_data`, by contrast, excludes nothing: its output
always has exactly the length of its input. -/
theorem normalization_exclusion_characterization (l : List Dict) :
    (standardizeList l).length ≤ l.length
    ∧ (∀ j ∈ standardizeList l, j.title ≠ "" ∧ j.company ≠ "")
    ∧ (∀ d : Dict, resolvedTitle d = "" ∨ resolvedCompany d = "" →
        standardize_job_data d = none)
    ∧ (∀ (llm : StdJob → Option ℚ) (s : ScoredJob),
        s ∈ score_jobs llm (standardizeList l) → s.job ∈ standardizeList l)
    ∧ (∀ (hashId : Dict → String) (now : Int) (parseISO : String → Option Int),
        (normalizeList hashId now parseISO l).length = l.length) := by
  refine ⟨List.length_filterMap_le _ _, ?_, ?_, ?_, ?_⟩
  · intro j hj
    rw [standardizeList, List.mem_filterMap] at hj
    obtain ⟨d, _, hd⟩ := hj
    simp only [standardize_job_data] at hd
    by_cases hc : resolvedTitle d = "" ∨ resolvedCompany d = ""
    · rw [if_pos hc] at hd; cases hd
    · rw [if_neg hc] at hd
      push_neg at hc
      have hj' := (Option.some.inj hd).symm
      subst hj'
      exact ⟨hc.1, hc.2⟩
  · intro d hd
    simp only [standardize_job_data]
    rw [if_pos hd]
  · intro llm s hs
    have hmem := (pySortDesc_perm (fun x : ScoredJob => x.total_score)
      ((standardizeList l).map fun j => { job := j, total_score := scoreValue llm j })).mem_iff.mp hs
    rw [List.mem_map] at hmem
    obtain ⟨j, hj, rfl⟩ := hmem
    exact hj
  · intro hashId now parseISO
    exact List.length_map l _

/-- Witness for the amended C3 at a concrete input: the record with an empty
resolved title is dropped by `standardize_job_data`, the standardized list
is no longer than the input, and the agents-path normalized list keeps its
full length. -/
theorem normalization_exclusion_witness :
    standardize_job_data exEmptyTitle = none
    ∧ (standardizeList exRawJobs).length ≤ exRawJobs.length
    ∧ (normalizeList (fun _ => "0") 0 (fun _ => none) exRawJobs).length =
        exRawJobs.length :=
  ⟨(normalization_exclusion_characterization exRawJobs).2.2.1 exEmptyTitle
      (Or.inl (by decide)),
   (normalization_exclusion_characterization exRawJobs).1,
   (normalization_exclusion_characterization exRawJobs).2.2.2.2
      (fun _ => "0") 0 (fun _ => none)⟩

/-- Claim C4: the ranker's output is exactly the input sorted by
`total_score` descending — a permutation of the input, pairwise descending —
and the sort is stable: for every score value the sublist of jobs carrying
that score is preserved verbatim, so equal-score jobs keep their relative
input order. -/
theorem ranking_sorted_stable (l : List ScoredJob) :
    List.Perm (rank_scored l) l
    ∧ (rank_scored l).Pairwise (fun a b => b.total_score ≤ a.total_score)
    ∧ ∀ q : ℚ, keyFilter (fun x => x.total_score) q (rank_scored l) =
        keyFilter (fun x => x.total_score) q l :=
  ⟨pySortDesc_perm _ l, pySortDesc_sorted _ l,
   fun q => pySortDesc_keyFilter _ q l⟩

/-- Claim C5: the coordinator's next-step decision equals the specification
transition rule — `complete` as soon as the error log is non-empty,
otherwise the first stage whose completion flag is unset in the fixed order
resume_parsed, jobs_scraped, analysis_complete, feedback_processed,
notification_sent, and `complete` when all are set. -/
theorem coordinator_matches_spec (s : AgentState) :
    (determine_next_step s).next_step = coordinatorSpec s := by
  obtain ⟨rd, jl, fb, sl, rp, js, ac, fp, ns, el, cp, nx⟩ := s
  cases el <;> cases rp <;> cases js <;> cases ac <;> cases fp <;> cases ns <;> rfl

/-- Claim C6 (counterexample): with two jobs mentioning the skills "b" then
"a" once each, the aggregated ranking is `[("b", 1), ("a", 1)]` — the tie is
not broken alphabetically (insertion order wins), contradicting the claimed
alphabetical tie-break. -/
theorem skills_tiebreak_not_alphabetical :
    extract_common_skills exSkillJobs = [("b", 1), ("a", 1)]
    ∧ ¬ tieAlphaSorted (extract_common_skills exSkillJobs) := by
  have h1 : extract_common_skills exSkillJobs = [("b", 1), ("a", 1)] := by decide
  refine ⟨h1, ?_⟩
  rw [h1]
  simp only [tieAlphaSorted]
  rw [List.pairwise_cons]
  rintro ⟨hall, -⟩
  have h2 := hall ("a", 1) (List.mem_singleton.mpr rfl)
  rcases h2 with h2 | h2
  · exact absurd h2 (by decide)
  · exact absurd h2.2 (by decide)

/-- Claim C6 (amended): the skill ranking is the insertion-ordered count
table stably sorted by count descending — a permutation of the table,
pairwise descending in count, tie groups preserved in table order; the
table's keys appear in first-mention order and each carries the exact
mention count; the summary truncates to the top five. -/
theorem skills_ranking_characterization (jobs : List Dict) :
    List.Perm (extract_common_skills jobs) (skillCounts jobs)
    ∧ (extract_common_skills jobs).Pairwise (fun p q => (q.2 : ℚ) ≤ (p.2 : ℚ))
    ∧ (∀ q : ℚ, keyFilter (fun p => (p.2 : ℚ)) q (extract_common_skills jobs) =
        keyFilter (fun p => (p.2 : ℚ)) q (skillCounts jobs))
    ∧ (skillCounts jobs).map Prod.fst = firstOccs (flatSkills jobs)
    ∧ (∀ p ∈ skillCounts jobs, p.2 = occCount (flatSkills jobs) p.1)
    ∧ topRequestedSkills jobs = (extract_common_skills jobs).take 5 := by
  refine ⟨pySortDesc_perm _ _, pySortDesc_sorted _ _,
    fun q => pySortDesc_keyFilter _ q _, ?_, ?_, rfl⟩
  · rw [skillCounts_eq_flat, keys_foldl_bump]
    simp [dropKnown_nil]
  · intro p hp
    rw [skillCounts_eq_flat] at hp
    have hnd : (((flatSkills jobs).foldl bump []).map Prod.fst).Nodup :=
      foldl_bump_keys_nodup _ (by simp)
    have hc := cnt_of_mem hnd hp
    rw [cnt_foldl] at hc
    simpa [cnt] using hc.symm

/-- Witness for the amended C6: the count table entry ("b", 1) carries the
exact number of mentions of "b". -/
theorem skills_ranking_characterization_witness :
    ("b", 1) ∈ skillCounts exSkillJobs
    ∧ (1 : Nat) = occCount (flatSkills exSkillJobs) "b" :=
  ⟨by decide,
   (skills_ranking_characterization exSkillJobs).2.2.2.2.1 ("b", 1) (by decide)⟩

/-- Claim C7 (counterexample): normalization is not idempotent.  For a
record whose url arrives under `applicationLink`, the first standardization
attributes source `Indeed` (the bare `url` key is empty) but stores the
resolved url; re-standardizing the output recomputes the source from that
url and yields `LinkedIn`, so the second pass changes the list. -/
theorem normalization_not_idempotent :
    standardizeList (List.map StdJob.toDict (standardizeList [exAppLinkRaw])) ≠
      standardizeList [exAppLinkRaw] := by
  decide

/-- Claim C7 (amended): a second pass of `standardize_job_data` keeps every
field except `source`, which is recomputed from the record's url (so
idempotence holds exactly when the stored source already agrees with the url
test); a second pass of `_normalize_job_data` additionally replaces `job_id`
by a fresh hash of the record and resets `posted_date` to the default
"7 days ago", because it reads the keys `id`/`jobId`/`postedDate`, which the
normalized record does not carry. -/
theorem renormalization_characterization :
    (∀ (d : Dict) (j : StdJob), standardize_job_data d = some j →
        standardize_job_data j.toDict =
          some { j with source :=
            if strContains j.url "linkedin.com" = true then "LinkedIn" else "Indeed" })
    ∧ (∀ (hashId : Dict → String) (now : Int) (parseISO : String → Option Int)
          (j : NormJob),
        normalize_job_data hashId now parseISO j.toDict =
          { j with job_id := hashId j.toDict, posted_date := now - 7,
                   source :=
            if strContains j.url "linkedin" = true then "LinkedIn" else "Indeed" }) := by
  constructor
  · intro d j h
    simp only [standardize_job_data] at h
    by_cases hc : resolvedTitle d = "" ∨ resolvedCompany d = ""
    · rw [if_pos hc] at h; cases h
    · rw [if_neg hc] at h
      push_neg at hc
      have hj' := (Option.some.inj h).symm
      subst hj'
      exact standardize_toDict _ hc.1 hc.2
  · intro hashId now parseISO j
    rfl

/-- Witness for the amended C7 at a record whose url sits under the `url`
key: the second standardization reproduces the record (its source already
agrees with the url test). -/
theorem renormalization_witness :
    standardize_job_data (StdJob.toDict exUrlStd) =
      some { exUrlStd with source :=
        (if strContains exUrlStd.url "linkedin.com" = true then "LinkedIn" else "Indeed") } :=
  renormalization_characterization.1 exUrlRaw exUrlStd (by decide)

/-- Claim C8: with a missing candidate profile or an empty job list, the
detail-scoring stage returns the state unchanged except that the scored
list is empty and `analysis_complete` is set — in particular no exception
is raised and the error log is untouched. -/
theorem scorer_empty_input_policy (llm : Dict → Dict → Dict → Option ScoreResult)
    (s : AgentState) (h : s.resume_data = none ∨ s.job_listings = []) :
    scorerProcess llm s =
      .ok { s with analysis_complete := true, scored_listings := [] } := by
  unfold scorerProcess
  rcases h with h | h
  · rw [if_pos (Or.inl (Or.inl h))]
  · rw [if_pos (Or.inr h)]

/-- Witness for C8: a concrete state with no profile takes the empty-input
branch. -/
theorem scorer_empty_input_policy_witness :
    scorerProcess (fun _ _ _ => none) exNoResumeState =
      .ok { exNoResumeState with analysis_complete := true, scored_listings := [] } :=
  scorer_empty_input_policy _ _ (Or.inl rfl)

/-- Claim C9 (counterexample): the agents-pipeline normalizer attributes
source `LinkedIn` to a record whose url contains `linkedin` but not
`linkedin.com` — source attribution is not "exactly when the URL contains
`linkedin.com`". -/
theorem source_not_linkedin_com :
    (normalize_job_data (fun _ => "0") 0 (fun _ => none) exLnkRaw).source = "LinkedIn"
    ∧ strContains (rawUrl exLnkRaw) "linkedin.com" = false := by
  constructor
  · decide
  · decide

/-- Claim C9 (amended): `standardize_job_data` attributes `LinkedIn` exactly
when the record's bare `url` key contains `linkedin.com`, and the constant
`Indeed` otherwise (no caller-supplied source tag exists);
`_normalize_job_data` tests the substring `linkedin` instead, likewise
falling back to the constant `Indeed`. -/
theorem source_attribution_characterization :
    (∀ (d : Dict) (j : StdJob), standardize_job_data d = some j →
        ((j.source = "LinkedIn" ↔ strContains (rawUrl d) "linkedin.com" = true)
          ∧ (j.source = "LinkedIn" ∨ j.source = "Indeed")))
    ∧ (∀ (hashId : Dict → String) (now : Int) (parseISO : String → Option Int)
          (d : Dict),
        (normalize_job_data hashId now parseISO d).source =
          if strContains (rawUrl d) "linkedin" = true then "LinkedIn" else "Indeed") := by
  constructor
  · intro d j h
    simp only [standardize_job_data] at h
    by_cases hc : resolvedTitle d = "" ∨ resolvedCompany d = ""
    · rw [if_pos hc] at h; cases h
    · rw [if_neg hc] at h
      have hj' := (Option.some.inj h).symm
      subst hj'
      simp only [stdSource]
      by_cases hu : strContains (rawUrl d) "linkedin.com" = true
      · rw [if_pos hu]
        exact ⟨⟨fun _ => hu, fun _ => rfl⟩, Or.inl rfl⟩
      · rw [if_neg hu]
        refine ⟨⟨fun hh => absurd hh (by decide), fun hh => absurd hh hu⟩, Or.inr rfl⟩
  · intro hashId now parseISO d
    rfl

/-- Witness for the amended C9: a record with a true `linkedin.com` url is
attributed `LinkedIn`. -/
theorem source_attribution_witness :
    exComStd.source = "LinkedIn"
    ∧ strContains (rawUrl exComRaw) "linkedin.com" = true :=
  ⟨((source_attribution_characterization.1 exComRaw exComStd (by decide)).1).mpr
      (by decide),
   by decide⟩

/-- Claim C10: whenever the job title or the desired role is the empty
string, the deterministic position-match scorer returns exactly 0.5; this
check precedes the exact-match, substring and word-overlap rules (at
`("", "")` both strings are equal yet the result is 0.5, not 1.0). -/
theorem position_match_empty_half (job_title desired_role : String)
    (h : job_title = "" ∨ desired_role = "") :
    score_position_match job_title desired_role = 1/2 := by
  unfold score_position_match
  rw [if_pos h]

/-- Witness for C10: both strings empty (equal, so the exact-match rule
would give 1.0) still yield 0.5. -/
theorem position_match_empty_half_witness :
    score_position_match "" "" = 1/2 :=
  position_match_empty_half "" "" (Or.inl rfl)

end JobSearch
